import Mathlib

/-! paymail-inspector: the `capabilities` and `p2p` commands

A shallow embedding of `cmd/capabilities.go` and `cmd/p2p.go`.

Each command's `Run` function is embedded as a pure function from its inputs
(the argument, the flag variables, and the answers of the collaborators it
calls) to the ordered trace of what it does: the messages it logs and the
collaborator calls it makes.  Collaborators whose code lives outside the two
files (`getCapabilities`, `validatePaymailAndDomain`, the `paymail` and
`chalk` packages, `validate.IsValidDNSName`) are fields of an environment
record; a Go `error` is represented by the text of its `Error()` method.
A trace holds the messages that `Run` itself logs; what a collaborator prints
while it runs (for instance the error that `validatePaymailAndDomain` has
"already shown") belongs to that collaborator and is not in the trace.
-/

namespace Paymail

set_option linter.dupNamespace false

/-! ## Go strings -/

/-- Go `len(s)` on a string: the number of bytes. -/
def len (s : String) : Nat := s.utf8ByteSize

/-- Does `sub` occur in `s` starting at some position (lists of characters). -/
def containsChars (sub : List Char) : List Char → Bool
  | [] => sub.isEmpty
  | c :: cs => sub.isPrefixOf (c :: cs) || containsChars sub cs

/-- Go `strings.Contains(s, substr)`. -/
def stringsContains (s substr : String) : Bool :=
  containsChars substr.data s.data

/-- Pieces of a character list cut at every occurrence of `sep`. -/
def splitChars (sep : Char) : List Char → List (List Char)
  | [] => [[]]
  | c :: cs =>
    if c = sep then [] :: splitChars sep cs
    else
      match splitChars sep cs with
      | [] => [[c]]
      | p :: ps => (c :: p) :: ps

/-- Go `strings.Split(s, sep)` for a one-character separator
(`p2p.go` only ever splits on `"@"`). -/
def stringsSplit (s : String) (sep : Char) : List String :=
  (splitChars sep s.data).map String.mk

/-- Go `parts[0]`; indexing an empty slice panics, rendered as `none`. -/
def index0 (parts : List String) : Option String := parts.head?

/-- The verb `%d` of `fmt.Sprintf` on a non-negative integer. -/
def fmtD (n : Nat) : String := toString n

/-- The verb `%-28v` of `fmt.Sprintf` on a string: left-justified in a field of
width 28, the width counted in runes. -/
def fmtPad28 (s : String) : String :=
  s ++ String.mk (List.replicate (28 - s.length) ' ')

/-! ## Data model -/

/-- Log levels of the `chalker` package that the two commands use. -/
inductive Level
  | DEFAULT
  | INFO
  | WARN
  | ERROR
  deriving DecidableEq, Repr

/-- A Go `interface{}` value as produced by decoding a JSON document:
`nil`, `bool`, `float64`, `string`, `[]interface{}` or
`map[string]interface{}`. The numeric payload is kept as its literal. -/
inductive Val
  | nil
  | bool (b : Bool)
  | float64 (literal : String)
  | string (s : String)
  | slice (items : List Val)
  | map (fields : List (String × Val))

/-- The `paymail.Capabilities` fields read by the commands. The Go map
`Capabilities` is given as the list of its entries in the order in which the
`range` loop visits them. -/
structure Capabilities where
  Capabilities : List (String × Val)
  P2PPaymentDestination : String
  PublicProfile : String

/-- One element of `P2PPaymentDestinationResponse.Outputs`. -/
structure Output where
  Script : String
  Satoshis : Nat
  Address : String

/-- The `paymail.P2PPaymentDestinationResponse` fields read by `p2p`. -/
structure P2PPaymentDestinationResponse where
  Reference : String
  Outputs : List Output

/-- The `paymail.PublicProfileResponse` fields read by `p2p`. -/
structure PublicProfileResponse where
  Name : String
  Avatar : String

/-- The colour functions of `github.com/ttacon/chalk` that the commands call
(`chalk.White.Color` and so on). -/
structure Chalk where
  White : String → String
  Cyan : String → String
  Yellow : String → String
  Green : String → String
  Magenta : String → String

/-- What a command does, in order: messages and collaborator calls. `panic` is
a Go run-time panic, which ends the process. -/
inductive Event
  | Log (level : Level) (msg : String)
  | displayHeader (level : Level) (msg : String)
  | IsValidDNSName (domain : String)
  | validatePaymailAndDomain (paymailAddress domain : String)
  | getCapabilities (domain : String)
  | GetP2PPaymentDestination (url aliasPart domain : String) (satoshis : Nat)
  | GetPublicProfile (url aliasPart domain : String)
  | panic
  deriving DecidableEq, Repr

/-! ## `cmd/capabilities.go` -/

/-- Collaborators of `capabilitiesCmd.Run`. `getCapabilities` is called as
`getCapabilities(domain, false)`. -/
structure CapabilitiesEnv where
  ExtractParts : String → String × String
  IsValidDNSName : String → Bool
  getCapabilities : String → Bool → Except String Capabilities
  chalk : Chalk

/-- Go `reflect.TypeOf(val)` followed by `.String()`. `reflect.TypeOf` of a nil
interface value is the nil `Type`, on which the method call panics: `none`. -/
def reflectTypeOfString : Val → Option String
  | .nil => none
  | .bool _ => some "bool"
  | .float64 _ => some "float64"
  | .string _ => some "string"
  | .slice _ => some "[]interface \x7b\x7d"
  | .map _ => some "map[string]interface \x7b\x7d"

/-- The verb `%s` of `fmt.Sprintf` applied to an `interface{}` holding a string:
the string itself. The listing loop reaches it only under
`valType == "string"`; on the other shapes, which it never sees, Go prints a
`%!s(...)` marker, abbreviated here. -/
def fmtS : Val → String
  | .string s => s
  | _ => "%!s(...)"

/-- The line of the listing loop for a string value (capabilities.go:79). -/
def targetLine (c : Chalk) (key : String) (val : Val) : String :=
  c.White "Capability" ++ ": " ++ fmtPad28 (c.Cyan key) ++ " " ++ c.White "Target" ++ ": "
    ++ c.Yellow (fmtS val)

/-- The line of the listing loop for a boolean value (capabilities.go:82, 84). -/
def flagLine (c : Chalk) (key : String) (enabled : Bool) : String :=
  c.White "Capability" ++ ": " ++ fmtPad28 (c.Cyan key) ++ " Is    : "
    ++ (if enabled then c.Green "Enabled" else c.Magenta "Disabled")

/-- The loop `for key, val := range capabilities.Capabilities` (lines 76-87). -/
def listCapabilities (c : Chalk) : List (String × Val) → List Event
  | [] => []
  | (key, val) :: rest =>
    match reflectTypeOfString val with
    | none => [Event.panic]
    | some valType =>
      if valType == "string" then
        Event.Log Level.INFO (targetLine c key val) :: listCapabilities c rest
      else if valType == "bool" then
        match val with
        | .bool b => Event.Log Level.INFO (flagLine c key b) :: listCapabilities c rest
        | _ => [Event.panic]
      else
        listCapabilities c rest

/-- The function `capabilitiesCmd.Run` applied to `args[0]`. -/
def capabilitiesRun (env : CapabilitiesEnv) (arg0 : String) : List Event :=
  let domain := (env.ExtractParts arg0).1
  if !stringsContains domain "." then
    [Event.Log Level.ERROR ("Domain name is invalid: " ++ domain)]
  else
    Event.IsValidDNSName domain ::
    if !env.IsValidDNSName domain then
      [Event.Log Level.ERROR ("Domain name failed DNS check: " ++ domain)]
    else
      Event.getCapabilities domain ::
      match env.getCapabilities domain false with
      | .error err =>
        if stringsContains err "context deadline exceeded" then
          [Event.Log Level.WARN ("No capabilities found for: " ++ domain)]
        else
          [Event.Log Level.ERROR ("Error: " ++ err)]
      | .ok capabilities =>
        Event.displayHeader Level.DEFAULT
            ("Listing " ++ fmtD capabilities.Capabilities.length ++ " capabilities...") ::
          listCapabilities env.chalk capabilities.Capabilities

/-! ## `cmd/p2p.go` -/

/-- The constant `defaultSatoshiValue`. -/
def defaultSatoshiValue : Nat := 1000

/-- Collaborators of `p2pCmd.Run`, and the constant
`paymail.CapabilityP2PPaymentDestination`. The two `paymail` requests return a
pointer and an error: `.ok none` is a nil pointer with a nil error. -/
structure P2PEnv where
  ExtractParts : String → String × String
  validatePaymailAndDomain : String → String → Bool
  getCapabilities : String → Except String Capabilities
  GetP2PPaymentDestination :
    String → String → String → Nat → Except String (Option P2PPaymentDestinationResponse)
  GetPublicProfile : String → String → String → Except String (Option PublicProfileResponse)
  CapabilityP2PPaymentDestination : String
  chalk : Chalk

/-- The three lines logged for one output (p2p.go:112-114); `index` counts
from zero. -/
def outputLines (c : Chalk) (index : Nat) (output : Output) : List Event :=
  [ Event.Log Level.DEFAULT
      ("output #" ++ fmtD (index + 1) ++ ": script: " ++ c.Cyan output.Script),
    Event.Log Level.DEFAULT
      ("output #" ++ fmtD (index + 1) ++ ": satoshis: " ++ c.Cyan (fmtD output.Satoshis)),
    Event.Log Level.DEFAULT
      ("output #" ++ fmtD (index + 1) ++ ": address: " ++ c.Cyan output.Address) ]

/-- The loop `for index, output := range p2pResponse.Outputs`, started at
`index`. -/
def listOutputs (c : Chalk) (index : Nat) : List Output → List Event
  | [] => []
  | output :: rest => outputLines c index output ++ listOutputs c (index + 1) rest

/-- Lines 103-115 of p2p.go: the reference, when there is one, then the
outputs. Reading a field through a nil `p2pResponse` panics. -/
def showResponse (c : Chalk) : Option P2PPaymentDestinationResponse → List Event
  | none => [Event.panic]
  | some p2pResponse =>
    (if len p2pResponse.Reference > 0 then
      [Event.Log Level.DEFAULT ("payment reference: " ++ c.Cyan p2pResponse.Reference)]
    else []) ++ listOutputs c 0 p2pResponse.Outputs

/-- Lines 93-100 of p2p.go: what is shown of a profile that was fetched. -/
def showProfile (c : Chalk) : Option PublicProfileResponse → List Event
  | none => []
  | some profile =>
    (if len profile.Name > 0 then
      [Event.Log Level.DEFAULT ("name: " ++ c.Cyan profile.Name)] else []) ++
    (if len profile.Avatar > 0 then
      [Event.Log Level.DEFAULT ("avatar: " ++ c.Cyan profile.Avatar)] else [])

/-- The value of the variable `satoshis` after lines 66-69 of p2p.go. -/
def setSatoshis (satoshis : Nat) : Nat :=
  if satoshis ≤ 0 then defaultSatoshiValue else satoshis

/-- Lines 86-115 of p2p.go, run once the payment request has returned without
error: the optional profile lookup, then the payment response. -/
def afterPayment (env : P2PEnv) (capabilities : Capabilities) (parts0 domain : String)
    (skipPublicProfile : Bool) (p2pResponse : Option P2PPaymentDestinationResponse) :
    List Event :=
  if len capabilities.PublicProfile > 0 && !skipPublicProfile then
    Event.Log Level.DEFAULT
        ("getting public profile for: " ++ env.chalk.Cyan (parts0 ++ "@" ++ domain) ++ "...") ::
    Event.GetPublicProfile capabilities.PublicProfile parts0 domain ::
    match env.GetPublicProfile capabilities.PublicProfile parts0 domain with
    | .error err => [Event.Log Level.ERROR ("get public profile failed: " ++ err)]
    | .ok profile => showProfile env.chalk profile ++ showResponse env.chalk p2pResponse
  else
    showResponse env.chalk p2pResponse

/-- The function `p2pCmd.Run` applied to `args[0]`, with the flag variables
`satoshis` (a `uint64`) and `skipPublicProfile`. -/
def p2pRun (env : P2PEnv) (arg0 : String) (satoshis : Nat) (skipPublicProfile : Bool) :
    List Event :=
  let domain := (env.ExtractParts arg0).1
  let paymailAddress := (env.ExtractParts arg0).2
  if len paymailAddress == 0 then
    [Event.Log Level.ERROR "paymail address not found or invalid"]
  else
    Event.validatePaymailAndDomain paymailAddress domain ::
    if !env.validatePaymailAndDomain paymailAddress domain then []
    else
      Event.getCapabilities domain ::
      match env.getCapabilities domain with
      | .error err =>
        if stringsContains err "context deadline exceeded" then
          [Event.Log Level.WARN ("no capabilities found for: " ++ domain)]
        else
          [Event.Log Level.ERROR ("error: " ++ err)]
      | .ok capabilities =>
        if len capabilities.P2PPaymentDestination == 0 then
          [Event.Log Level.ERROR
            (domain ++ " is missing a required capability: "
              ++ env.CapabilityP2PPaymentDestination)]
        else
          match index0 (stringsSplit paymailAddress '@') with
          | none => [Event.panic]
          | some parts0 =>
            Event.GetP2PPaymentDestination capabilities.P2PPaymentDestination parts0 domain
                (setSatoshis satoshis) ::
            match env.GetP2PPaymentDestination capabilities.P2PPaymentDestination parts0 domain
                (setSatoshis satoshis) with
            | .error err => [Event.Log Level.ERROR ("p2p payment request failed: " ++ err)]
            | .ok p2pResponse =>
              afterPayment env capabilities parts0 domain skipPublicProfile p2pResponse

/-! ## Observations on traces -/

/-- The first element of `strings.Split(paymailAddress, "@")`: what precedes
the first `@` (see `index0_stringsSplit`). -/
def parts0 (paymailAddress : String) : String :=
  String.mk (paymailAddress.data.takeWhile (fun c => c != '@'))

/-- Is the event a call of `paymail.GetPublicProfile`? -/
def isProfileCall : Event → Bool
  | .GetPublicProfile _ _ _ => true
  | _ => false

/-- Is the event a call of `paymail.GetP2PPaymentDestination`? -/
def isPaymentCall : Event → Bool
  | .GetP2PPaymentDestination _ _ _ _ => true
  | _ => false

/-- Is the event a call of `getCapabilities`? -/
def isFetchCall : Event → Bool
  | .getCapabilities _ => true
  | _ => false

/-- Is the event a message of the given level? -/
def isLogAt (level : Level) : Event → Bool
  | .Log l _ => l == level
  | _ => false

/-- Is the event a message (of any level)? -/
def isLog : Event → Bool
  | .Log _ _ => true
  | _ => false

/-- Is the value a Go `string` or `bool`? -/
def isStringOrBool : Val → Bool
  | .string _ => true
  | .bool _ => true
  | _ => false

/-- The line that one pass of the listing loop logs for an entry whose type
string it could take (capabilities.go:78-86): a `Target` line for a string, a
flag line for a boolean, none for another shape. -/
def entryLine (c : Chalk) (entry : String × Val) : Option Event :=
  match entry.2 with
  | .string _ => some (Event.Log Level.INFO (targetLine c entry.1 entry.2))
  | .bool b => some (Event.Log Level.INFO (flagLine c entry.1 b))
  | _ => none

/-- Can `reflect.TypeOf(val).String()` be evaluated on the entry's value? -/
def hasType (entry : String × Val) : Bool := (reflectTypeOfString entry.2).isSome

/-! ## Sample runs -/

/-- Colours switched off. -/
def plainChalk : Chalk := ⟨id, id, id, id, id⟩

/-- A run of `p2p bob@x.test`: the domain offers both capabilities, the payment
request is answered with a reference and one output, the profile request
fails. -/
def profileFailsEnv : P2PEnv where
  ExtractParts := fun _ => ("x.test", "bob")
  validatePaymailAndDomain := fun _ _ => true
  getCapabilities := fun _ => .ok ⟨[], "https://x.test/p2p", "https://x.test/profile"⟩
  GetP2PPaymentDestination := fun _ _ _ _ => .ok (some ⟨"ref1", [⟨"76a9", 1000, "1abc"⟩]⟩)
  GetPublicProfile := fun _ _ _ => .error "boom"
  CapabilityP2PPaymentDestination := "2a40af698840"
  chalk := plainChalk

/-- A run of `p2p bob@x.test` against a domain whose capability document has a
profile endpoint but no payment-destination endpoint. -/
def noPaymentCapabilityEnv : P2PEnv where
  ExtractParts := fun _ => ("x.test", "bob")
  validatePaymailAndDomain := fun _ _ => true
  getCapabilities := fun _ => .ok ⟨[("f12f968c92d6", .string "https://x.test/profile")], "",
    "https://x.test/profile"⟩
  GetP2PPaymentDestination := fun _ _ _ _ => .ok (some ⟨"ref1", [⟨"76a9", 1000, "1abc"⟩]⟩)
  GetPublicProfile := fun _ _ _ => .ok (some ⟨"Bob", ""⟩)
  CapabilityP2PPaymentDestination := "2a40af698840"
  chalk := plainChalk

/-- A run of `p2p bob@x.test` in which every request succeeds. -/
def allGoodEnv : P2PEnv where
  ExtractParts := fun _ => ("x.test", "bob")
  validatePaymailAndDomain := fun _ _ => true
  getCapabilities := fun _ => .ok ⟨[], "https://x.test/p2p", "https://x.test/profile"⟩
  GetP2PPaymentDestination := fun _ _ _ _ => .ok (some ⟨"ref1", [⟨"76a9", 1000, "1abc"⟩]⟩)
  GetPublicProfile := fun _ _ _ => .ok (some ⟨"Bob", ""⟩)
  CapabilityP2PPaymentDestination := "2a40af698840"
  chalk := plainChalk

/-- A run of `p2p @x.test`: the parser hands back the domain `x.test` and the
address `@x.test`, the second result being the whole address as `p2p.go` uses
it (validated at line 45, split at `@` at line 72); every request succeeds. -/
def emptyAliasEnv : P2PEnv where
  ExtractParts := fun _ => ("x.test", "@x.test")
  validatePaymailAndDomain := fun _ _ => true
  getCapabilities := fun _ => .ok ⟨[], "https://x.test/p2p", "https://x.test/profile"⟩
  GetP2PPaymentDestination := fun _ _ _ _ => .ok (some ⟨"ref1", [⟨"76a9", 1000, "1abc"⟩]⟩)
  GetPublicProfile := fun _ _ _ => .ok (some ⟨"Bob", ""⟩)
  CapabilityP2PPaymentDestination := "2a40af698840"
  chalk := plainChalk

/-- The run `emptyAliasEnv` with a `validatePaymailAndDomain` that rejects the
address. -/
def emptyAliasRejectedEnv : P2PEnv where
  ExtractParts := fun _ => ("x.test", "@x.test")
  validatePaymailAndDomain := fun _ _ => false
  getCapabilities := fun _ => .ok ⟨[], "https://x.test/p2p", "https://x.test/profile"⟩
  GetP2PPaymentDestination := fun _ _ _ _ => .ok (some ⟨"ref1", [⟨"76a9", 1000, "1abc"⟩]⟩)
  GetPublicProfile := fun _ _ _ => .ok (some ⟨"Bob", ""⟩)
  CapabilityP2PPaymentDestination := "2a40af698840"
  chalk := plainChalk

/-- A run of `p2p x.test`: the parser finds a domain and no address. -/
def bareDomainEnv : P2PEnv where
  ExtractParts := fun _ => ("x.test", "")
  validatePaymailAndDomain := fun _ _ => true
  getCapabilities := fun _ => .ok ⟨[], "https://x.test/p2p", "https://x.test/profile"⟩
  GetP2PPaymentDestination := fun _ _ _ _ => .ok (some ⟨"ref1", [⟨"76a9", 1000, "1abc"⟩]⟩)
  GetPublicProfile := fun _ _ _ => .ok (some ⟨"Bob", ""⟩)
  CapabilityP2PPaymentDestination := "2a40af698840"
  chalk := plainChalk

/-- A run of `p2p bob@x.test` in which the capability fetch exceeds its
timeout. -/
def fetchTimeoutEnv : P2PEnv where
  ExtractParts := fun _ => ("x.test", "bob")
  validatePaymailAndDomain := fun _ _ => true
  getCapabilities := fun _ =>
    .error "Get https://x.test/.well-known/bsvalias: context deadline exceeded"
  GetP2PPaymentDestination := fun _ _ _ _ => .ok (some ⟨"ref1", [⟨"76a9", 1000, "1abc"⟩]⟩)
  GetPublicProfile := fun _ _ _ => .ok (some ⟨"Bob", ""⟩)
  CapabilityP2PPaymentDestination := "2a40af698840"
  chalk := plainChalk

/-- A run of `capabilities x.test` in which the capability fetch is refused. -/
def fetchRefusedEnv : CapabilitiesEnv where
  ExtractParts := fun _ => ("x.test", "")
  IsValidDNSName := fun _ => true
  getCapabilities := fun _ _ => .error "dial tcp: connection refused"
  chalk := plainChalk

/-- A run of `capabilities localhost`. -/
def localhostEnv : CapabilitiesEnv where
  ExtractParts := fun _ => ("localhost", "")
  IsValidDNSName := fun _ => true
  getCapabilities := fun _ _ => .ok ⟨[], "", ""⟩
  chalk := plainChalk

/-- A run of `capabilities x.test` on the document
`{"pki": "https://x.test/pki", "extra": null, "senderValidation": true}`,
visited in that order. -/
def nullEntryEnv : CapabilitiesEnv where
  ExtractParts := fun _ => ("x.test", "")
  IsValidDNSName := fun _ => true
  getCapabilities := fun _ _ =>
    .ok ⟨[("pki", .string "https://x.test/pki"), ("extra", .nil),
          ("senderValidation", .bool true)], "", ""⟩
  chalk := plainChalk

/-- A run of `capabilities x.test` on the document `{"senderValidation": true}`
(scenario D of the spec). -/
def senderValidationEnv : CapabilitiesEnv where
  ExtractParts := fun _ => ("x.test", "")
  IsValidDNSName := fun _ => true
  getCapabilities := fun _ _ => .ok ⟨[("senderValidation", .bool true)], "", ""⟩
  chalk := plainChalk

/-- A run of `capabilities x.test` on the document
`{"extra": null, "senderValidation": true}`, visited in that order. -/
def nullThenFlagEnv : CapabilitiesEnv where
  ExtractParts := fun _ => ("x.test", "")
  IsValidDNSName := fun _ => true
  getCapabilities := fun _ _ => .ok ⟨[("extra", .nil), ("senderValidation", .bool true)], "", ""⟩
  chalk := plainChalk

/-- The document `{"extra": null, "pki": "https://x.test/pki"}`, visited in
that order. -/
def nullFirstDocument : List (String × Val) :=
  [("extra", .nil), ("pki", .string "https://x.test/pki")]

/-! ## Lemmas on the string functions -/

theorem len_eq_zero_iff (s : String) : len s = 0 ↔ s = "" := by
  obtain ⟨l⟩ := s
  cases l with
  | nil => simp [len, String.utf8ByteSize, String.utf8ByteSize.go]
  | cons c cs =>
    have h := Char.utf8Size_pos c
    simp [len, String.utf8ByteSize, String.utf8ByteSize.go]
    constructor
    · intro h2; omega
    · intro h2; exact absurd h2 (by simp [String.ext_iff])

theorem containsChars_single (c : Char) (l : List Char) :
    containsChars [c] l = true ↔ c ∈ l := by
  induction l with
  | nil => simp [containsChars]
  | cons d ds ih =>
    simp [containsChars, List.isPrefixOf, ih]

theorem stringsContains_dot (s : String) :
    stringsContains s "." = true ↔ '.' ∈ s.data := by
  simpa [stringsContains] using containsChars_single '.' s.data

theorem splitChars_head (sep : Char) (l : List Char) :
    (splitChars sep l).head? = some (l.takeWhile (fun c => c != sep)) := by
  induction l with
  | nil => simp [splitChars]
  | cons d ds ih =>
    by_cases h : d = sep
    · simp [splitChars, h]
    · simp only [splitChars, h, if_false]
      cases hs : splitChars sep ds with
      | nil => simp [hs] at ih
      | cons p ps =>
        simp [hs] at ih
        have hne : (d != sep) = true := by simp [h]
        simp [List.takeWhile, hne, ih]

theorem index0_stringsSplit (paymailAddress : String) :
    index0 (stringsSplit paymailAddress '@') = some (parts0 paymailAddress) := by
  simp [index0, stringsSplit, List.head?_map, splitChars_head, parts0]

/-! ## The p2p flow -/

/-- The trace of `p2pCmd.Run` once the address is non-empty, validation has
passed, the capabilities were fetched and the payment capability is there. -/
theorem p2pRun_payment (env : P2PEnv) (arg0 : String) (satoshis : Nat) (skip : Bool)
    (domain paymailAddress : String) (capabilities : Capabilities)
    (hX : env.ExtractParts arg0 = (domain, paymailAddress))
    (hA : len paymailAddress ≠ 0)
    (hV : env.validatePaymailAndDomain paymailAddress domain = true)
    (hC : env.getCapabilities domain = .ok capabilities)
    (hP : len capabilities.P2PPaymentDestination ≠ 0) :
    p2pRun env arg0 satoshis skip =
      Event.validatePaymailAndDomain paymailAddress domain ::
      Event.getCapabilities domain ::
      Event.GetP2PPaymentDestination capabilities.P2PPaymentDestination
        (parts0 paymailAddress) domain (setSatoshis satoshis) ::
      match env.GetP2PPaymentDestination capabilities.P2PPaymentDestination
          (parts0 paymailAddress) domain (setSatoshis satoshis) with
      | .error err => [Event.Log Level.ERROR ("p2p payment request failed: " ++ err)]
      | .ok p2pResponse =>
        afterPayment env capabilities (parts0 paymailAddress) domain skip p2pResponse := by
  simp [p2pRun, hX, hA, hV, hC, hP, index0_stringsSplit]

/-- Claim C1, as stated, fails: in the run `profileFailsEnv` the payment request
succeeds with reference `ref1` and one output, the profile lookup is attempted
and returns an error, and the flow stops at an ERROR message: neither the
reference nor the output is reported and no WARN message is logged. -/
theorem p2p_profile_failure_discards_payment :
    profileFailsEnv.GetP2PPaymentDestination "https://x.test/p2p" "bob" "x.test" 1000
        = .ok (some ⟨"ref1", [⟨"76a9", 1000, "1abc"⟩]⟩) ∧
      profileFailsEnv.GetPublicProfile "https://x.test/profile" "bob" "x.test"
        = .error "boom" ∧
      p2pRun profileFailsEnv "bob@x.test" 0 false =
        [Event.validatePaymailAndDomain "bob" "x.test",
         Event.getCapabilities "x.test",
         Event.GetP2PPaymentDestination "https://x.test/p2p" "bob" "x.test" 1000,
         Event.Log Level.DEFAULT "getting public profile for: bob@x.test...",
         Event.GetPublicProfile "https://x.test/profile" "bob" "x.test",
         Event.Log Level.ERROR "get public profile failed: boom"] ∧
      Event.Log Level.DEFAULT "payment reference: ref1"
        ∉ p2pRun profileFailsEnv "bob@x.test" 0 false ∧
      Event.Log Level.DEFAULT "output #1: script: 76a9"
        ∉ p2pRun profileFailsEnv "bob@x.test" 0 false ∧
      (p2pRun profileFailsEnv "bob@x.test" 0 false).any (isLogAt Level.WARN) = false := by
  refine ⟨rfl, rfl, by decide, by decide, by decide, by decide⟩

/-- Claim C1, amended: when the payment request has succeeded and the profile
lookup is attempted and returns an error, the flow logs one ERROR message
`get public profile failed: <error>` and ends there; nothing of the payment
response is reported after it. -/
theorem p2p_profile_failure_ends_flow (env : P2PEnv) (arg0 : String) (satoshis : Nat)
    (domain paymailAddress : String) (capabilities : Capabilities)
    (p2pResponse : Option P2PPaymentDestinationResponse) (err : String)
    (hX : env.ExtractParts arg0 = (domain, paymailAddress))
    (hA : len paymailAddress ≠ 0)
    (hV : env.validatePaymailAndDomain paymailAddress domain = true)
    (hC : env.getCapabilities domain = .ok capabilities)
    (hP : len capabilities.P2PPaymentDestination ≠ 0)
    (hPay : env.GetP2PPaymentDestination capabilities.P2PPaymentDestination
      (parts0 paymailAddress) domain (setSatoshis satoshis) = .ok p2pResponse)
    (hCap : len capabilities.PublicProfile > 0)
    (hProfile : env.GetPublicProfile capabilities.PublicProfile (parts0 paymailAddress) domain
      = .error err) :
    p2pRun env arg0 satoshis false =
      [Event.validatePaymailAndDomain paymailAddress domain,
       Event.getCapabilities domain,
       Event.GetP2PPaymentDestination capabilities.P2PPaymentDestination
         (parts0 paymailAddress) domain (setSatoshis satoshis),
       Event.Log Level.DEFAULT
         ("getting public profile for: "
           ++ env.chalk.Cyan (parts0 paymailAddress ++ "@" ++ domain) ++ "..."),
       Event.GetPublicProfile capabilities.PublicProfile (parts0 paymailAddress) domain,
       Event.Log Level.ERROR ("get public profile failed: " ++ err)] := by
  rw [p2pRun_payment env arg0 satoshis false domain paymailAddress capabilities hX hA hV hC hP]
  simp [afterPayment, hPay, hCap, hProfile]

/-- The amended claim C1 applies to the run `profileFailsEnv`. -/
theorem p2p_profile_failure_ends_flow_witness :
    p2pRun profileFailsEnv "bob@x.test" 0 false =
      [Event.validatePaymailAndDomain "bob" "x.test",
       Event.getCapabilities "x.test",
       Event.GetP2PPaymentDestination "https://x.test/p2p" (parts0 "bob") "x.test"
         (setSatoshis 0),
       Event.Log Level.DEFAULT
         ("getting public profile for: " ++ plainChalk.Cyan (parts0 "bob" ++ "@" ++ "x.test")
           ++ "..."),
       Event.GetPublicProfile "https://x.test/profile" (parts0 "bob") "x.test",
       Event.Log Level.ERROR ("get public profile failed: " ++ "boom")] :=
  p2p_profile_failure_ends_flow profileFailsEnv "bob@x.test" 0 "x.test" "bob"
    ⟨[], "https://x.test/p2p", "https://x.test/profile"⟩
    (some ⟨"ref1", [⟨"76a9", 1000, "1abc"⟩]⟩) "boom" rfl (by decide) rfl rfl (by decide) rfl
    (by decide) rfl

/-- The rendering of a payment response makes no collaborator call. -/
theorem listOutputs_calls (c : Chalk) (outputs : List Output) (index : Nat) (e : Event)
    (h : e ∈ listOutputs c index outputs) : isLog e = true := by
  induction outputs generalizing index with
  | nil => simp [listOutputs] at h
  | cons o rest ih =>
    simp only [listOutputs, List.mem_append] at h
    rcases h with h | h
    · simp [outputLines] at h
      rcases h with h | h | h <;> simp [h, isLog]
    · exact ih _ h

theorem showResponse_calls (c : Chalk) (r : Option P2PPaymentDestinationResponse) (e : Event)
    (h : e ∈ showResponse c r) : isLog e = true ∨ e = Event.panic := by
  cases r with
  | none => simp [showResponse] at h; exact Or.inr h
  | some p =>
    simp only [showResponse, List.mem_append] at h
    rcases h with h | h
    · split at h
      · simp at h; simp [h, isLog]
      · simp at h
    · exact Or.inl (listOutputs_calls c _ _ e h)

theorem showProfile_calls (c : Chalk) (p : Option PublicProfileResponse) (e : Event)
    (h : e ∈ showProfile c p) : isLog e = true := by
  cases p with
  | none => simp [showProfile] at h
  | some p =>
    simp only [showProfile, List.mem_append] at h
    rcases h with h | h <;> split at h <;> simp at h <;> simp [h, isLog]

/-- Claim C2: when the fetched capability set has an empty
`P2PPaymentDestination`, the flow ends with a single message, of level ERROR,
naming the domain and the code `paymail.CapabilityP2PPaymentDestination`; neither
`GetP2PPaymentDestination` nor `GetPublicProfile` is called. -/
theorem p2p_missing_payment_capability (env : P2PEnv) (arg0 : String) (satoshis : Nat)
    (skip : Bool) (domain paymailAddress : String) (capabilities : Capabilities)
    (hX : env.ExtractParts arg0 = (domain, paymailAddress))
    (hA : len paymailAddress ≠ 0)
    (hV : env.validatePaymailAndDomain paymailAddress domain = true)
    (hC : env.getCapabilities domain = .ok capabilities)
    (hP : len capabilities.P2PPaymentDestination = 0) :
    p2pRun env arg0 satoshis skip =
        [Event.validatePaymailAndDomain paymailAddress domain,
         Event.getCapabilities domain,
         Event.Log Level.ERROR
           (domain ++ " is missing a required capability: "
             ++ env.CapabilityP2PPaymentDestination)] ∧
      (p2pRun env arg0 satoshis skip).countP isLog = 1 ∧
      (p2pRun env arg0 satoshis skip).any isPaymentCall = false ∧
      (p2pRun env arg0 satoshis skip).any isProfileCall = false := by
  have h : p2pRun env arg0 satoshis skip =
      [Event.validatePaymailAndDomain paymailAddress domain,
       Event.getCapabilities domain,
       Event.Log Level.ERROR
         (domain ++ " is missing a required capability: "
           ++ env.CapabilityP2PPaymentDestination)] := by
    simp [p2pRun, hX, hA, hV, hC, hP]
  rw [h]
  simp [isLog, isPaymentCall, isProfileCall]

/-- Claim C2 at the run `noPaymentCapabilityEnv`. -/
theorem p2p_missing_payment_capability_witness :
    p2pRun noPaymentCapabilityEnv "bob@x.test" 0 false =
        [Event.validatePaymailAndDomain "bob" "x.test",
         Event.getCapabilities "x.test",
         Event.Log Level.ERROR
           ("x.test" ++ " is missing a required capability: " ++ "2a40af698840")] ∧
      (p2pRun noPaymentCapabilityEnv "bob@x.test" 0 false).countP isLog = 1 ∧
      (p2pRun noPaymentCapabilityEnv "bob@x.test" 0 false).any isPaymentCall = false ∧
      (p2pRun noPaymentCapabilityEnv "bob@x.test" 0 false).any isProfileCall = false :=
  p2p_missing_payment_capability noPaymentCapabilityEnv "bob@x.test" 0 false "x.test" "bob"
    ⟨[("f12f968c92d6", .string "https://x.test/profile")], "", "https://x.test/profile"⟩
    rfl (by decide) rfl rfl (by decide)

/-- After the payment request, the payment request is not made again. -/
theorem afterPayment_no_payment_call (env : P2PEnv) (capabilities : Capabilities)
    (a d : String) (skip : Bool) (r : Option P2PPaymentDestinationResponse) (e : Event)
    (h : e ∈ afterPayment env capabilities a d skip r) : isPaymentCall e = false := by
  have hResp : ∀ e, e ∈ showResponse env.chalk r → isPaymentCall e = false := by
    intro e he
    rcases showResponse_calls _ _ _ he with h1 | h1
    · cases e <;> simp_all [isLog, isPaymentCall]
    · simp [h1, isPaymentCall]
  unfold afterPayment at h
  split at h
  · simp only [List.mem_cons] at h
    rcases h with h | h | h
    · simp [h, isPaymentCall]
    · simp [h, isPaymentCall]
    · split at h
      · simp at h; simp [h, isPaymentCall]
      · rcases List.mem_append.mp h with h1 | h1
        · have := showProfile_calls _ _ _ h1
          cases e <;> simp_all [isLog, isPaymentCall]
        · exact hResp e h1
  · exact hResp e h

theorem showResponse_countP_profile (c : Chalk) (r : Option P2PPaymentDestinationResponse) :
    (showResponse c r).countP isProfileCall = 0 := by
  rw [List.countP_eq_zero]
  intro e he
  rcases showResponse_calls _ _ _ he with h1 | h1
  · cases e <;> simp_all [isLog, isProfileCall]
  · simp [h1, isProfileCall]

theorem showProfile_countP_profile (c : Chalk) (p : Option PublicProfileResponse) :
    (showProfile c p).countP isProfileCall = 0 := by
  rw [List.countP_eq_zero]
  intro e he
  have := showProfile_calls _ _ _ he
  cases e <;> simp_all [isLog, isProfileCall]

/-- After the payment request, `GetPublicProfile` is called once if the profile
capability is there and the caller has not opted out, and not at all
otherwise. -/
theorem afterPayment_countP_profile (env : P2PEnv) (capabilities : Capabilities)
    (a d : String) (skip : Bool) (r : Option P2PPaymentDestinationResponse) :
    (afterPayment env capabilities a d skip r).countP isProfileCall =
      if len capabilities.PublicProfile > 0 ∧ skip = false then 1 else 0 := by
  unfold afterPayment
  by_cases h : len capabilities.PublicProfile > 0 ∧ skip = false
  · obtain ⟨h1, h2⟩ := h
    simp only [h1, h2, decide_True, Bool.not_false, Bool.and_self, if_true, and_self]
    cases env.GetPublicProfile capabilities.PublicProfile a d with
    | error err => simp [List.countP_cons, isProfileCall]
    | ok p =>
      simp [List.countP_cons, isProfileCall, showResponse_countP_profile,
        showProfile_countP_profile]
  · rw [if_neg h]
    have h3 : (decide (len capabilities.PublicProfile > 0) && !skip) = false := by
      cases skip <;> simp_all
    simp only [h3]
    exact showResponse_countP_profile _ _

/-- The two shapes of a p2p trace: either the payment request was made and
answered without error, and the rest is `afterPayment`; or no profile lookup is
made and every payment request in the trace was answered with an error. -/
theorem p2pRun_shape (env : P2PEnv) (arg0 : String) (satoshis : Nat) (skip : Bool) :
    (∃ capabilities r,
        env.getCapabilities (env.ExtractParts arg0).1 = .ok capabilities ∧
        env.GetP2PPaymentDestination capabilities.P2PPaymentDestination
          (parts0 (env.ExtractParts arg0).2) (env.ExtractParts arg0).1 (setSatoshis satoshis)
          = .ok r ∧
        p2pRun env arg0 satoshis skip =
          [Event.validatePaymailAndDomain (env.ExtractParts arg0).2 (env.ExtractParts arg0).1,
           Event.getCapabilities (env.ExtractParts arg0).1,
           Event.GetP2PPaymentDestination capabilities.P2PPaymentDestination
             (parts0 (env.ExtractParts arg0).2) (env.ExtractParts arg0).1
             (setSatoshis satoshis)] ++
          afterPayment env capabilities (parts0 (env.ExtractParts arg0).2)
            (env.ExtractParts arg0).1 skip r) ∨
      ((p2pRun env arg0 satoshis skip).countP isProfileCall = 0 ∧
        ∀ url a d n, Event.GetP2PPaymentDestination url a d n ∈ p2pRun env arg0 satoshis skip →
          n = setSatoshis satoshis ∧ ∃ err, env.GetP2PPaymentDestination url a d n = .error err)
    := by
  by_cases hA : len (env.ExtractParts arg0).2 = 0
  · right; simp [p2pRun, hA, isProfileCall]
  by_cases hV : env.validatePaymailAndDomain (env.ExtractParts arg0).2 (env.ExtractParts arg0).1
      = true
  swap
  · right; simp [p2pRun, hA, hV, isProfileCall]
  cases hC : env.getCapabilities (env.ExtractParts arg0).1 with
  | error err =>
    right
    by_cases hT : stringsContains err "context deadline exceeded" = true <;>
      simp [p2pRun, hA, hV, hC, hT, isProfileCall]
  | ok capabilities =>
    by_cases hP : len capabilities.P2PPaymentDestination = 0
    · right; simp [p2pRun, hA, hV, hC, hP, isProfileCall]
    have hRun := p2pRun_payment env arg0 satoshis skip _ _ capabilities rfl hA hV hC hP
    cases hPay : env.GetP2PPaymentDestination capabilities.P2PPaymentDestination
        (parts0 (env.ExtractParts arg0).2) (env.ExtractParts arg0).1 (setSatoshis satoshis) with
    | error err =>
      right
      rw [hRun, hPay]
      refine ⟨by simp [isProfileCall], ?_⟩
      intro url a d n hmem
      simp at hmem
      obtain ⟨h1, h2, h3, h4⟩ := hmem
      subst h1 h2 h3 h4
      exact ⟨rfl, err, hPay⟩
    | ok r =>
      left
      refine ⟨capabilities, r, rfl, hPay, ?_⟩
      rw [hRun, hPay]
      rfl

/-- Claim C3: every `GetP2PPaymentDestination` request of a p2p run carries
`defaultSatoshiValue` (1000) when the caller gave 0 and the caller's amount
otherwise, hence never 0; and the request is made with that amount whenever the
flow gets as far as the payment request. -/
theorem p2p_request_amount (env : P2PEnv) (arg0 : String) (satoshis : Nat) (skip : Bool) :
    defaultSatoshiValue = 1000 ∧
      (∀ url a d n,
        Event.GetP2PPaymentDestination url a d n ∈ p2pRun env arg0 satoshis skip →
          n = (if satoshis = 0 then defaultSatoshiValue else satoshis) ∧ n ≠ 0) ∧
      (∀ domain paymailAddress capabilities,
        env.ExtractParts arg0 = (domain, paymailAddress) →
        len paymailAddress ≠ 0 →
        env.validatePaymailAndDomain paymailAddress domain = true →
        env.getCapabilities domain = .ok capabilities →
        len capabilities.P2PPaymentDestination ≠ 0 →
        Event.GetP2PPaymentDestination capabilities.P2PPaymentDestination
            (parts0 paymailAddress) domain
            (if satoshis = 0 then defaultSatoshiValue else satoshis)
          ∈ p2pRun env arg0 satoshis skip) := by
  have hSet : setSatoshis satoshis = (if satoshis = 0 then defaultSatoshiValue else satoshis) := by
    simp [setSatoshis]
  have hPos : (if satoshis = 0 then defaultSatoshiValue else satoshis) ≠ 0 := by
    by_cases h0 : satoshis = 0 <;> simp [h0, defaultSatoshiValue]
  refine ⟨rfl, ?_, ?_⟩
  · intro url a d n hmem
    rcases p2pRun_shape env arg0 satoshis skip with ⟨capabilities, r, _, _, hRun⟩ | ⟨_, hAll⟩
    · rw [hRun] at hmem
      rcases List.mem_append.mp hmem with h1 | h1
      · simp at h1
        obtain ⟨_, _, _, h4⟩ := h1
        rw [h4, hSet]
        exact ⟨rfl, hPos⟩
      · have := afterPayment_no_payment_call _ _ _ _ _ _ _ h1
        simp [isPaymentCall] at this
    · obtain ⟨h1, _⟩ := hAll url a d n hmem
      rw [h1, hSet]
      exact ⟨rfl, hPos⟩
  · intro domain paymailAddress capabilities hX hA hV hC hP
    rw [p2pRun_payment env arg0 satoshis skip domain paymailAddress capabilities hX hA hV hC hP,
      hSet]
    simp

/-- Claim C3 at the run `allGoodEnv` with the amount 0: the request carries
1000. -/
theorem p2p_request_amount_witness :
    Event.GetP2PPaymentDestination "https://x.test/p2p" (parts0 "bob") "x.test"
        (if (0 : Nat) = 0 then defaultSatoshiValue else 0)
      ∈ p2pRun allGoodEnv "bob@x.test" 0 false :=
  (p2p_request_amount allGoodEnv "bob@x.test" 0 false).2.2 "x.test" "bob"
    ⟨[], "https://x.test/p2p", "https://x.test/profile"⟩ rfl (by decide) rfl rfl (by decide)

/-- Claim C4, as stated, fails: in the run `emptyAliasEnv` the address
`@x.test` has an empty alias (`parts[0]` is the empty string), yet the flow does
not log `paymail address not found or invalid`: it calls
`validatePaymailAndDomain`, fetches the capabilities and sends the payment
request with the empty alias; when the validation rejects the address
(`emptyAliasRejectedEnv`) the flow ends there, again without that message. -/
theorem p2p_empty_alias_passes_address_check :
    index0 (stringsSplit "@x.test" '@') = some "" ∧
      p2pRun emptyAliasEnv "@x.test" 0 true =
        [Event.validatePaymailAndDomain "@x.test" "x.test",
         Event.getCapabilities "x.test",
         Event.GetP2PPaymentDestination "https://x.test/p2p" "" "x.test" 1000,
         Event.Log Level.DEFAULT "payment reference: ref1",
         Event.Log Level.DEFAULT "output #1: script: 76a9",
         Event.Log Level.DEFAULT "output #1: satoshis: 1000",
         Event.Log Level.DEFAULT "output #1: address: 1abc"] ∧
      Event.Log Level.ERROR "paymail address not found or invalid"
        ∉ p2pRun emptyAliasEnv "@x.test" 0 true ∧
      (p2pRun emptyAliasEnv "@x.test" 0 true).any isFetchCall = true ∧
      p2pRun emptyAliasRejectedEnv "@x.test" 0 true =
        [Event.validatePaymailAndDomain "@x.test" "x.test"] := by
  refine ⟨by decide, by decide, by decide, by decide, by decide⟩

/-- Claim C4, amended: when the paymail address that `paymail.ExtractParts`
returns (its second result) is empty, the p2p flow ends with the single message
`paymail address not found or invalid`, and `validatePaymailAndDomain` and
`getCapabilities` are not called; when that address is not empty, whatever its
alias part, the flow goes on to `validatePaymailAndDomain`. -/
theorem p2p_empty_address (env : P2PEnv) (arg0 : String) (satoshis : Nat) (skip : Bool) :
    ((env.ExtractParts arg0).2 = "" →
        p2pRun env arg0 satoshis skip =
            [Event.Log Level.ERROR "paymail address not found or invalid"] ∧
          (p2pRun env arg0 satoshis skip).any isFetchCall = false ∧
          (∀ a d, Event.validatePaymailAndDomain a d ∉ p2pRun env arg0 satoshis skip)) ∧
      ((env.ExtractParts arg0).2 ≠ "" →
        ∃ rest, p2pRun env arg0 satoshis skip =
          Event.validatePaymailAndDomain (env.ExtractParts arg0).2 (env.ExtractParts arg0).1
            :: rest) := by
  constructor
  · intro hEmpty
    have hRun : p2pRun env arg0 satoshis skip =
        [Event.Log Level.ERROR "paymail address not found or invalid"] := by
      simp [p2pRun, hEmpty, (len_eq_zero_iff "").mpr rfl]
    rw [hRun]
    simp [isFetchCall]
  · intro hFull
    have hLen : len (env.ExtractParts arg0).2 ≠ 0 := fun h => hFull ((len_eq_zero_iff _).mp h)
    simp only [p2pRun, beq_iff_eq, hLen, if_false]
    exact ⟨_, rfl⟩

/-- The amended claim C4 at the run `bareDomainEnv` (empty address) and at the
run `emptyAliasEnv` (address `@x.test`). -/
theorem p2p_empty_address_witness :
    p2pRun bareDomainEnv "x.test" 0 false =
        [Event.Log Level.ERROR "paymail address not found or invalid"] ∧
      (∃ rest, p2pRun emptyAliasEnv "@x.test" 0 true =
        Event.validatePaymailAndDomain "@x.test" "x.test" :: rest) :=
  ⟨((p2p_empty_address bareDomainEnv "x.test" 0 false).1 rfl).1,
   (p2p_empty_address emptyAliasEnv "@x.test" 0 true).2 (by decide)⟩

/-- Claim C6: `GetPublicProfile` is called once when a payment request of the
run was answered without error, the fetched capability set has a non-empty
`PublicProfile` and `skipPublicProfile` is false, and is not called otherwise;
when it is called, the trace splits into a first part that holds the payment
request, for the same alias and domain, and no profile lookup, and a second
part that holds the lookup. -/
theorem p2p_profile_lookup_once (env : P2PEnv) (arg0 : String) (satoshis : Nat)
    (skip : Bool) :
    (((∃ url a d n r,
          Event.GetP2PPaymentDestination url a d n ∈ p2pRun env arg0 satoshis skip ∧
          env.GetP2PPaymentDestination url a d n = .ok r) ∧
        (∃ capabilities,
          env.getCapabilities (env.ExtractParts arg0).1 = .ok capabilities ∧
          len capabilities.PublicProfile > 0) ∧
        skip = false) →
        (p2pRun env arg0 satoshis skip).countP isProfileCall = 1) ∧
      (¬ ((∃ url a d n r,
          Event.GetP2PPaymentDestination url a d n ∈ p2pRun env arg0 satoshis skip ∧
          env.GetP2PPaymentDestination url a d n = .ok r) ∧
        (∃ capabilities,
          env.getCapabilities (env.ExtractParts arg0).1 = .ok capabilities ∧
          len capabilities.PublicProfile > 0) ∧
        skip = false) →
        (p2pRun env arg0 satoshis skip).countP isProfileCall = 0) ∧
      (∀ url a d,
        Event.GetPublicProfile url a d ∈ p2pRun env arg0 satoshis skip →
          ∃ before after url2 n,
            p2pRun env arg0 satoshis skip = before ++ after ∧
            Event.GetP2PPaymentDestination url2 a d n ∈ before ∧
            before.any isProfileCall = false ∧
            Event.GetPublicProfile url a d ∈ after) := by
  rcases p2pRun_shape env arg0 satoshis skip with ⟨capabilities, r, hC, hPay, hRun⟩ | ⟨h0, hAll⟩
  · have hCount : (p2pRun env arg0 satoshis skip).countP isProfileCall =
        if len capabilities.PublicProfile > 0 ∧ skip = false then 1 else 0 := by
      rw [hRun, List.countP_append, afterPayment_countP_profile]
      simp [List.countP_cons, isProfileCall]
    refine ⟨?_, ?_, ?_⟩
    · rintro ⟨_, ⟨capabilities2, hC2, hLen⟩, hSkip⟩
      rw [hC] at hC2
      cases hC2
      rw [hCount, if_pos ⟨hLen, hSkip⟩]
    · intro hNot
      rw [hCount, if_neg]
      rintro ⟨hLen, hSkip⟩
      apply hNot
      refine ⟨⟨_, _, _, _, r, ?_, hPay⟩, ⟨capabilities, hC, hLen⟩, hSkip⟩
      rw [hRun]
      simp
    · intro url a d hmem
      rw [hRun] at hmem
      rcases List.mem_append.mp hmem with h1 | h1
      · simp at h1
      · have hAfter := h1
        unfold afterPayment at h1
        split at h1
        · simp only [List.mem_cons] at h1
          rcases h1 with h1 | h1 | h1
          · simp at h1
          · simp only [Event.GetPublicProfile.injEq] at h1
            obtain ⟨_, ha, hd⟩ := h1
            subst ha hd
            exact ⟨_, _, capabilities.P2PPaymentDestination, setSatoshis satoshis, hRun, by simp,
              by simp [isProfileCall], hAfter⟩
          · split at h1
            · simp at h1
            · rcases List.mem_append.mp h1 with h2 | h2
              · have := showProfile_calls _ _ _ h2
                simp [isLog] at this
              · rcases showResponse_calls _ _ _ h2 with h3 | h3
                · simp [isLog] at h3
                · simp at h3
        · rcases showResponse_calls _ _ _ h1 with h3 | h3
          · simp [isLog] at h3
          · simp at h3
  · refine ⟨?_, fun _ => h0, ?_⟩
    · rintro ⟨⟨url, a, d, n, r, hmem, hOk⟩, _, _⟩
      obtain ⟨_, err, hErr⟩ := hAll url a d n hmem
      rw [hErr] at hOk
      cases hOk
    · intro url a d hmem
      have hpos : 0 < (p2pRun env arg0 satoshis skip).countP isProfileCall :=
        List.countP_pos_iff.mpr ⟨_, hmem, by simp [isProfileCall]⟩
      omega

/-- Claim C6 at the runs `allGoodEnv`: one lookup when the caller has not opted
out, none when `skipPublicProfile` is set. -/
theorem p2p_profile_lookup_once_witness :
    (p2pRun allGoodEnv "bob@x.test" 0 false).countP isProfileCall = 1 ∧
      (p2pRun allGoodEnv "bob@x.test" 0 true).countP isProfileCall = 0 :=
  ⟨(p2p_profile_lookup_once allGoodEnv "bob@x.test" 0 false).1
      ⟨⟨"https://x.test/p2p", "bob", "x.test", 1000, some ⟨"ref1", [⟨"76a9", 1000, "1abc"⟩]⟩,
          by decide, rfl⟩,
        ⟨⟨[], "https://x.test/p2p", "https://x.test/profile"⟩, rfl, by decide⟩, rfl⟩,
   (p2p_profile_lookup_once allGoodEnv "bob@x.test" 0 true).2.1 (by simp)⟩

/-! ## The capability fetch, in both flows -/

/-- Claim C5: in both flows an error of `getCapabilities` ends the run right
after one message; the message is of level WARN when the error text contains
`context deadline exceeded` and of level ERROR otherwise, and nothing else of
the trace depends on which of the two it is. -/
theorem fetch_error_ends_flow (penv : P2PEnv) (cenv : CapabilitiesEnv) (arg0 : String)
    (satoshis : Nat) (skip : Bool) (err : String) :
    (∀ domain paymailAddress,
        penv.ExtractParts arg0 = (domain, paymailAddress) →
        len paymailAddress ≠ 0 →
        penv.validatePaymailAndDomain paymailAddress domain = true →
        penv.getCapabilities domain = .error err →
        p2pRun penv arg0 satoshis skip =
          [Event.validatePaymailAndDomain paymailAddress domain,
           Event.getCapabilities domain,
           if stringsContains err "context deadline exceeded" then
             Event.Log Level.WARN ("no capabilities found for: " ++ domain)
           else Event.Log Level.ERROR ("error: " ++ err)]) ∧
      (∀ domain,
        (cenv.ExtractParts arg0).1 = domain →
        stringsContains domain "." = true →
        cenv.IsValidDNSName domain = true →
        cenv.getCapabilities domain false = .error err →
        capabilitiesRun cenv arg0 =
          [Event.IsValidDNSName domain,
           Event.getCapabilities domain,
           if stringsContains err "context deadline exceeded" then
             Event.Log Level.WARN ("No capabilities found for: " ++ domain)
           else Event.Log Level.ERROR ("Error: " ++ err)]) := by
  constructor
  · intro domain paymailAddress hX hA hV hC
    by_cases hT : stringsContains err "context deadline exceeded" = true <;>
      simp [p2pRun, hX, hA, hV, hC, hT]
  · intro domain hX hDot hDNS hC
    by_cases hT : stringsContains err "context deadline exceeded" = true <;>
      simp [capabilitiesRun, hX, hDot, hDNS, hC, hT]

/-- Claim C5 at a p2p run whose fetch times out (one WARN message) and at a
capabilities run whose fetch is refused (one ERROR message). -/
theorem fetch_error_ends_flow_witness :
    p2pRun fetchTimeoutEnv "bob@x.test" 0 false =
        [Event.validatePaymailAndDomain "bob" "x.test",
         Event.getCapabilities "x.test",
         Event.Log Level.WARN "no capabilities found for: x.test"] ∧
      capabilitiesRun fetchRefusedEnv "x.test" =
        [Event.IsValidDNSName "x.test",
         Event.getCapabilities "x.test",
         Event.Log Level.ERROR "Error: dial tcp: connection refused"] :=
  ⟨((fetch_error_ends_flow fetchTimeoutEnv fetchRefusedEnv "bob@x.test" 0 false
        "Get https://x.test/.well-known/bsvalias: context deadline exceeded").1
      "x.test" "bob" rfl (by decide) rfl rfl).trans (by decide),
   ((fetch_error_ends_flow fetchTimeoutEnv fetchRefusedEnv "x.test" 0 false
        "dial tcp: connection refused").2
      "x.test" rfl (by decide) rfl rfl).trans (by decide)⟩

/-! ## The capabilities flow -/

theorem invalid_ne_failed (domain : String) :
    "Domain name is invalid: " ++ domain ≠ "Domain name failed DNS check: " ++ domain := by
  intro h
  have h2 := congrArg String.data h
  simp [String.data_append] at h2

/-- Claim C7: when the extracted domain has no `.`, the capabilities flow logs
`Domain name is invalid: <domain>` at level ERROR and ends: neither the DNS-name
check nor `getCapabilities` is called; and a run that reports the DNS-check
failure has a domain with a `.`. -/
theorem capabilities_domain_without_dot (env : CapabilitiesEnv) (arg0 : String) :
    ('.' ∉ (env.ExtractParts arg0).1.data →
        capabilitiesRun env arg0 =
            [Event.Log Level.ERROR ("Domain name is invalid: " ++ (env.ExtractParts arg0).1)] ∧
          (capabilitiesRun env arg0).any isFetchCall = false ∧
          (∀ d, Event.IsValidDNSName d ∉ capabilitiesRun env arg0)) ∧
      (∀ level,
        Event.Log level ("Domain name failed DNS check: " ++ (env.ExtractParts arg0).1)
            ∈ capabilitiesRun env arg0 →
          '.' ∈ (env.ExtractParts arg0).1.data) := by
  have hRun : '.' ∉ (env.ExtractParts arg0).1.data →
      capabilitiesRun env arg0 =
        [Event.Log Level.ERROR ("Domain name is invalid: " ++ (env.ExtractParts arg0).1)] := by
    intro hDot
    have hC : stringsContains (env.ExtractParts arg0).1 "." = false := by
      rw [Bool.eq_false_iff, Ne, stringsContains_dot]
      exact hDot
    simp [capabilitiesRun, hC]
  constructor
  · intro hDot
    rw [hRun hDot]
    simp [isFetchCall]
  · intro level hmem
    by_contra hDot
    rw [hRun hDot] at hmem
    simp at hmem
    exact invalid_ne_failed _ hmem.2.symm

/-- Claim C7 at the run `capabilities localhost`. -/
theorem capabilities_domain_without_dot_witness :
    capabilitiesRun localhostEnv "localhost" =
      [Event.Log Level.ERROR ("Domain name is invalid: " ++ "localhost")] :=
  ((capabilities_domain_without_dot localhostEnv "localhost").1 (by decide)).1

/-! ## The capability listing -/

/-- One pass of the listing loop over a string entry, over `true` and over
`false`. -/
theorem listCapabilities_head (c : Chalk) (key s : String) (rest : List (String × Val)) :
    listCapabilities c ((key, .string s) :: rest) =
        Event.Log Level.INFO
          (c.White "Capability" ++ ": " ++ fmtPad28 (c.Cyan key) ++ " " ++ c.White "Target"
            ++ ": " ++ c.Yellow s) :: listCapabilities c rest ∧
      listCapabilities c ((key, .bool true) :: rest) =
        Event.Log Level.INFO
          (c.White "Capability" ++ ": " ++ fmtPad28 (c.Cyan key) ++ " Is    : "
            ++ c.Green "Enabled") :: listCapabilities c rest ∧
      listCapabilities c ((key, .bool false) :: rest) =
        Event.Log Level.INFO
          (c.White "Capability" ++ ": " ++ fmtPad28 (c.Cyan key) ++ " Is    : "
            ++ c.Magenta "Disabled") :: listCapabilities c rest := by
  refine ⟨?_, ?_, ?_⟩
  · simp [listCapabilities, reflectTypeOfString, targetLine, fmtS]
  · simp [listCapabilities, reflectTypeOfString, flagLine]
  · simp [listCapabilities, reflectTypeOfString, flagLine]

/-- The whole listing: the entries before the first nil value are rendered in
order, one line for each string or boolean and none for another shape; at the
first nil value the loop panics and nothing after it is rendered. -/
theorem listCapabilities_eq (c : Chalk) (document : List (String × Val)) :
    listCapabilities c document =
      (document.takeWhile hasType).filterMap (entryLine c)
        ++ (if document.all hasType then [] else [Event.panic]) := by
  induction document with
  | nil => simp [listCapabilities]
  | cons entry rest ih =>
    obtain ⟨key, val⟩ := entry
    cases val <;>
      simp [listCapabilities, reflectTypeOfString, hasType, entryLine, List.takeWhile,
        List.filterMap_cons] at ih ⊢ <;>
      exact ih

/-- Scenario D of the spec: the document `{"senderValidation": true}` gives the
header and one `Enabled` line. -/
theorem listing_scenario_D :
    capabilitiesRun senderValidationEnv "x.test" =
      [Event.IsValidDNSName "x.test",
       Event.getCapabilities "x.test",
       Event.displayHeader Level.DEFAULT "Listing 1 capabilities...",
       Event.Log Level.INFO "Capability: senderValidation             Is    : Enabled"] := by
  decide

/-- Claim C9 fails on the code: on the document
`{"extra": null, "senderValidation": true}`, visited in that order, the boolean
entry `senderValidation` gets no line at all: the loop panics at the null entry
before it, where the same entry alone gets its `Enabled` line. -/
theorem listing_drops_flag_after_null :
    capabilitiesRun nullThenFlagEnv "x.test" =
        [Event.IsValidDNSName "x.test",
         Event.getCapabilities "x.test",
         Event.displayHeader Level.DEFAULT "Listing 2 capabilities...",
         Event.panic] ∧
      Event.Log Level.INFO "Capability: senderValidation             Is    : Enabled"
        ∉ capabilitiesRun nullThenFlagEnv "x.test" ∧
      (capabilitiesRun nullThenFlagEnv "x.test").countP isLog = 0 ∧
      listCapabilities plainChalk [("senderValidation", .bool true)] =
        [Event.Log Level.INFO "Capability: senderValidation             Is    : Enabled"] := by
  refine ⟨by decide, by decide, by decide, by decide⟩

/-- Claim C8 fails on the code: on the document
`{"pki": "https://x.test/pki", "extra": null, "senderValidation": true}` the
listing renders `pki` and then panics at the null entry; `senderValidation` is
never rendered. -/
theorem listing_panics_on_null_entry :
    capabilitiesRun nullEntryEnv "x.test" =
      [Event.IsValidDNSName "x.test",
       Event.getCapabilities "x.test",
       Event.displayHeader Level.DEFAULT "Listing 3 capabilities...",
       Event.Log Level.INFO "Capability: pki                          Target: https://x.test/pki",
       Event.panic] := by
  decide

/-- Claim C10 fails on the code: on the document
`{"extra": null, "pki": "https://x.test/pki"}`, visited in that order, one entry
is a string but the listing panics at once and renders no line. -/
theorem listing_count_short_on_null_entry :
    listCapabilities plainChalk nullFirstDocument = [Event.panic] ∧
      (listCapabilities plainChalk nullFirstDocument).countP isLog = 0 ∧
      nullFirstDocument.countP (fun entry => isStringOrBool entry.2) = 1 ∧
      nullFirstDocument.length = 2 := by
  decide

/-- The listing never renders more lines than there are string or boolean
entries, and those are at most the entries announced by the header. -/
theorem listCapabilities_count_le (c : Chalk) (document : List (String × Val)) :
    (listCapabilities c document).countP isLog
        ≤ document.countP (fun entry => isStringOrBool entry.2) ∧
      document.countP (fun entry => isStringOrBool entry.2) ≤ document.length := by
  refine ⟨?_, List.countP_le_length _⟩
  induction document with
  | nil => simp [listCapabilities]
  | cons entry rest ih =>
    obtain ⟨key, val⟩ := entry
    cases val <;>
      simp [listCapabilities, reflectTypeOfString, isStringOrBool, isLog, List.countP_cons]
        at ih ⊢ <;>
      omega

/-- On a document without a nil value the listing does not panic and renders
one line for each string or boolean entry. -/
theorem listCapabilities_without_nil (c : Chalk) (document : List (String × Val))
    (h : ∀ entry ∈ document, (reflectTypeOfString entry.2).isSome = true) :
    Event.panic ∉ listCapabilities c document ∧
      (listCapabilities c document).countP isLog
        = document.countP (fun entry => isStringOrBool entry.2) := by
  induction document with
  | nil => simp [listCapabilities]
  | cons entry rest ih =>
    obtain ⟨key, val⟩ := entry
    have hRest := ih (fun e he => h e (List.mem_cons_of_mem _ he))
    have hHead := h (key, val) (List.mem_cons_self _ _)
    cases val <;>
      simp_all [listCapabilities, reflectTypeOfString, isStringOrBool, isLog, List.countP_cons]

end Paymail
